import Mathlib

/-!
# Verification of the progressive-growing scheduler of `pggan-pytorch`

This file embeds, in Lean 4, the progressive-growing depth/alpha scheduler
(`DepthManager`) and the loss monitor (`EfficientLossMonitor`) of
`src/plugins.py`, and proves the specification claims about them.

Python integers are modelled as `ℤ`, Python float arithmetic on the
schedule quantities as `ℚ` (all values involved are exact small rationals),
and dictionaries as functions into `Option`.
-/

namespace PGGAN

/-- Python `int(q)` for a rational: truncation toward zero. -/
def pyInt (q : ℚ) : ℤ := if 0 ≤ q then ⌊q⌋ else ⌈q⌉

/-- `d.get(k, default)` for a dictionary modelled as `ℤ → Option α`. -/
def dictGet {α : Type} (d : ℤ → Option α) (k : ℤ) (default : α) : α :=
  (d k).getD default

/-- Last element of a list, with a default for the empty list
(used to thread `alpha_map[i - 1]` through the boundary scan). -/
def lastD : List ℤ → ℤ → ℤ
  | [], d => d
  | a :: l, _ => lastD l a

/-!
## `DepthManager.pre_compute_alpha_map` (src/plugins.py lines 66-76)

```python
points = []
pointer = 0
for i in range(start_depth, max_depth):
    pointer += int(lod_training_kimg_overrides.get(i + 1, lod_training_kimg) * 1000)
    points.append(pointer)
    pointer += int(lod_transition_kimg_overrides.get(i + 1, lod_transition_kimg) * 1000)
    points.append(pointer)
return points
```
-/

/-- The loop body of `pre_compute_alpha_map`, recursing on the number of
remaining loop iterations (`fuel = max_depth - i` at loop variable `i`). -/
def preComputeAux (lod_training_kimg : ℚ) (trainOv : ℤ → Option ℚ)
    (lod_transition_kimg : ℚ) (transOv : ℤ → Option ℚ) :
    ℤ → ℤ → ℕ → List ℤ
  | _, _, 0 => []
  | pointer, i, fuel + 1 =>
    let p1 := pointer + pyInt (dictGet trainOv (i + 1) lod_training_kimg * 1000)
    let p2 := p1 + pyInt (dictGet transOv (i + 1) lod_transition_kimg * 1000)
    p1 :: p2 :: preComputeAux lod_training_kimg trainOv lod_transition_kimg transOv p2 (i + 1) fuel

/-- `DepthManager.pre_compute_alpha_map`. `start_depth` and `max_depth` are
Python ints; the loop `range(start_depth, max_depth)` runs
`(max_depth - start_depth).toNat` times. -/
def pre_compute_alpha_map (start_depth max_depth : ℤ) (lod_training_kimg : ℚ)
    (trainOv : ℤ → Option ℚ) (lod_transition_kimg : ℚ) (transOv : ℤ → Option ℚ) : List ℤ :=
  preComputeAux lod_training_kimg trainOv lod_transition_kimg transOv 0 start_depth
    (max_depth - start_depth).toNat

/-!
## `DepthManager.calc_progress` (src/plugins.py lines 78-97)

```python
depth = self.depth_offset
alpha = 1.0
for i, point in enumerate(self.alpha_map):
    if cur_nimg == point:
        break
    if cur_nimg > point and i % 2 == 0:
        depth += 1
    if cur_nimg < point and i % 2 == 1:
        alpha = (cur_nimg - self.alpha_map[i - 1]) / (point - self.alpha_map[i - 1])
        break
    if cur_nimg < point:
        break
depth = min(self.max_depth, depth)
if self.disable_progression:
    depth = self.max_depth
    alpha = 1.0
return depth, alpha
```
-/

/-- The scan over the boundary list of `calc_progress`.  `i` is the Python
loop index, `prev` is the previously visited boundary (`alpha_map[i - 1]`,
only read when `i` is odd, hence `i ≥ 1`), `depth` the accumulated depth.
Returns the (pre-clamping) `(depth, alpha)` pair at the `break` (or at loop
exhaustion, where `alpha` still holds its initial `1.0`). -/
def scanLoop (cur : ℤ) : List ℤ → ℕ → ℤ → ℤ → ℤ × ℚ
  | [], _, _, depth => (depth, 1)
  | point :: rest, i, prev, depth =>
    if cur = point then (depth, 1)
    else
      let depth' := if point < cur ∧ i % 2 = 0 then depth + 1 else depth
      if cur < point ∧ i % 2 = 1 then
        (depth', ((cur - prev : ℤ) : ℚ) / ((point - prev : ℤ) : ℚ))
      else if cur < point then (depth', 1)
      else scanLoop cur rest (i + 1) point depth'

/-- The configuration fields of a `DepthManager` instance: the ones read by
`calc_progress` (`depth_offset`, `max_depth`, `disable_progression`,
`alpha_map`) and the ones read by `iteration`
(`reset_optimizer`, `minibatch_default`, `tick_kimg_default`,
`default_lr`). -/
structure DepthManager where
  depth_offset : ℤ
  max_depth : ℤ
  disable_progression : Bool
  alpha_map : List ℤ
  reset_optimizer : Bool
  minibatch_default : ℤ
  tick_kimg_default : ℚ
  default_lr : ℚ

/-- `DepthManager.calc_progress(cur_nimg)`. -/
def calc_progress (dm : DepthManager) (cur_nimg : ℤ) : ℤ × ℚ :=
  let r := scanLoop cur_nimg dm.alpha_map 0 0 dm.depth_offset
  let depth := min dm.max_depth r.1
  if dm.disable_progression then (dm.max_depth, 1) else (depth, r.2)

/-!
## Characterization of the boundary scan
-/

/-- Number of even integers in `[i, i + n)`: how many of the loop indices
`i, i+1, ..., i+n-1` trigger the even-index depth increment. -/
def evenCnt : ℕ → ℕ → ℕ
  | _, 0 => 0
  | i, n + 1 => (if i % 2 = 0 then 1 else 0) + evenCnt (i + 1) n

/-- The concrete schedule of the spec scenario: `depth_offset=0, max_depth=3,
lod_training_kimg=1` (1000 samples), `lod_transition_kimg=1/2` (500 samples),
no overrides. -/
def exampleMap : List ℤ :=
  pre_compute_alpha_map 0 3 1 (fun _ => none) (1 / 2) (fun _ => none)

/-- The `DepthManager` of the spec scenario (the `iteration` configuration
fields take the constructor defaults where the source has them). -/
def exampleDM : DepthManager :=
  { depth_offset := 0, max_depth := 3, disable_progression := false,
    alpha_map := exampleMap, reset_optimizer := true, minibatch_default := 256,
    tick_kimg_default := 1, default_lr := 1 }

/-- The scan of `calc_progress` with the `alpha` division guarded: `none`
exactly when the Python expression
`(cur_nimg - alpha_map[i - 1]) / (point - alpha_map[i - 1])` would divide
by zero. Used to show the division-by-zero branch is unreachable. -/
def scanLoopChecked (cur : ℤ) : List ℤ → ℕ → ℤ → ℤ → Option (ℤ × ℚ)
  | [], _, _, depth => some (depth, 1)
  | point :: rest, i, prev, depth =>
    if cur = point then some (depth, 1)
    else
      let depth' := if point < cur ∧ i % 2 = 0 then depth + 1 else depth
      if cur < point ∧ i % 2 = 1 then
        if point = prev then none
        else some (depth', ((cur - prev : ℤ) : ℚ) / ((point - prev : ℤ) : ℚ))
      else if cur < point then some (depth', 1)
      else scanLoopChecked cur rest (i + 1) point depth'

/-!
## `DepthManager.iteration` and `register` (src/plugins.py lines 28-64, 99-119)
-/

/-- The class attribute `DepthManager.minibatch_override`. -/
def minibatch_override : ℤ → Option ℤ := fun k =>
  if k = 0 then some 256 else if k = 1 then some 256
  else if k = 2 then some 128 else if k = 3 then some 128
  else if k = 4 then some 48 else if k = 5 then some 32
  else if k = 6 then some 32 else if k = 7 then some 32
  else if k = 8 then some 16 else if k = 9 then some 16
  else if k = 10 then some 8 else if k = 11 then some 8 else none

/-- The class attribute `DepthManager.tick_kimg_override`. -/
def tick_kimg_override : ℤ → Option ℚ := fun k =>
  if k = 4 then some 4 else if k = 5 then some 4
  else if k = 6 then some 4 else if k = 7 then some 3
  else if k = 8 then some 3 else if k = 9 then some 2
  else if k = 10 then some 2 else if k = 11 then some 1 else none

/-- The class attribute `DepthManager.training_kimg_override`. -/
def training_kimg_override : ℤ → Option ℚ := fun k =>
  if k = 1 then some 200 else if k = 2 then some 200
  else if k = 3 then some 200 else if k = 4 then some 200 else none

/-- The class attribute `DepthManager.transition_kimg_override`. -/
def transition_kimg_override : ℤ → Option ℚ := fun k =>
  if k = 1 then some 200 else if k = 2 then some 200
  else if k = 3 then some 200 else if k = 4 then some 200 else none

/-- The mutable scheduler state `self.depth`, `self.alpha` (both `-1` after
`__init__`). -/
structure DMState where
  depth : ℤ
  alpha : ℚ

/-- The trainer-side state read and written by `DepthManager.iteration` and
`register`. Rebuildable resources (the two optimizers, the two
learning-rate schedulers, the dataloader, the data iterator, the
random-latents generator) are modelled by a generation counter, bumped once
per rebuild, together with the parameters the factory was called with;
object identity is preserved across a call exactly when the counter is
unchanged. -/
structure TrainerState where
  cur_nimg : ℤ
  generator_depth : ℤ
  discriminator_depth : ℤ
  dataset_model_depth : ℤ
  generator_alpha : ℚ
  discriminator_alpha : ℚ
  dataset_alpha : ℚ
  optimizer_gen : ℕ
  optimizer_lr : ℚ
  lr_scheduler_gen : ℕ
  data_loader_gen : ℕ
  data_loader_batch : ℤ
  dataiter_gen : ℕ
  rlg_gen : ℕ
  rlg_batch : ℤ
  tick_duration_nimg : ℤ
  stats_minibatch_size : ℤ
  stats_depth : ℤ
  stats_alpha_val : ℚ
  optimizer_d_present : Bool

/-- `DepthManager.iteration` (src/plugins.py lines 99-119): recompute the
progress, rebuild the per-depth resources when the depth changed (the
optimizers and learning-rate schedulers only when `reset_optimizer` is set
and the run is not resuming), propagate `alpha` when it changed, and
rewrite the stats entries. -/
def iteration (dm : DepthManager) (ms : DMState) (ts : TrainerState)
    (is_resuming : Bool) : DMState × TrainerState :=
  let depth := (calc_progress dm ts.cur_nimg).1
  let alpha := (calc_progress dm ts.cur_nimg).2
  let step1 : DMState × TrainerState :=
    if depth ≠ ms.depth then
      let minibatch_size :=
        dictGet minibatch_override (depth - dm.depth_offset) dm.minibatch_default
      let ts1 := { ts with discriminator_depth := depth, generator_depth := depth,
                           dataset_model_depth := depth }
      let ts2 :=
        if dm.reset_optimizer ∧ ¬ is_resuming then
          { ts1 with optimizer_gen := ts1.optimizer_gen + 1,
                     lr_scheduler_gen := ts1.lr_scheduler_gen + 1,
                     optimizer_lr :=
                       (dm.minibatch_default : ℚ) * dm.default_lr / (minibatch_size : ℚ) }
        else ts1
      let tick_duration_kimg :=
        dictGet tick_kimg_override (depth - dm.depth_offset) dm.tick_kimg_default
      (⟨depth, ms.alpha⟩,
       { ts2 with data_loader_gen := ts2.data_loader_gen + 1,
                  data_loader_batch := minibatch_size,
                  dataiter_gen := ts2.dataiter_gen + 1,
                  rlg_gen := ts2.rlg_gen + 1,
                  rlg_batch := minibatch_size,
                  tick_duration_nimg := pyInt (tick_duration_kimg * 1000),
                  stats_minibatch_size := minibatch_size })
    else (ms, ts)
  let step2 : DMState × TrainerState :=
    if alpha ≠ step1.1.alpha then
      (⟨step1.1.depth, alpha⟩,
       { step1.2 with discriminator_alpha := alpha, generator_alpha := alpha,
                      dataset_alpha := alpha })
    else step1
  (step2.1, { step2.2 with stats_depth := depth, stats_alpha_val := alpha })

/-- `DepthManager.register` (src/plugins.py lines 60-64): initialize the
stats entries and evaluate `iteration` once, with `is_resuming` set to
whether a resumed discriminator optimizer is present on the trainer. -/
def register (dm : DepthManager) (ms : DMState) (ts : TrainerState) :
    DMState × TrainerState :=
  let ts1 := { ts with stats_minibatch_size := dm.minibatch_default,
                       stats_alpha_val := ms.alpha }
  iteration dm ms ts1 ts.optimizer_d_present

/-- A concrete trainer state for witnesses: mid-transition at
`cur_nimg = 1200` in the spec scenario. -/
def exampleTS : TrainerState :=
  { cur_nimg := 1200, generator_depth := 1, discriminator_depth := 1,
    dataset_model_depth := 1, generator_alpha := 2 / 5,
    discriminator_alpha := 2 / 5, dataset_alpha := 2 / 5,
    optimizer_gen := 0, optimizer_lr := 1, lr_scheduler_gen := 0,
    data_loader_gen := 0, data_loader_batch := 256, dataiter_gen := 0,
    rlg_gen := 0, rlg_batch := 256, tick_duration_nimg := 1000,
    stats_minibatch_size := 256, stats_depth := 0, stats_alpha_val := 1,
    optimizer_d_present := false }

/-!
## `EfficientLossMonitor` (src/plugins.py lines 122-148)
-/

/-- A Python float as observed by the monitor: either NaN or a rational. -/
structure PyFloat where
  isNan : Bool
  val : ℚ

/-- The configuration of an `EfficientLossMonitor`
(`monitor_threshold`, `monitor_warmup`, `monitor_patience`). -/
structure LossMonitorCfg where
  threshold : ℚ
  warmup : ℤ
  patience : ℤ

/-- `EfficientLossMonitor._get_value`: extract the monitored loss value,
raising `ValueError` when it is NaN (the `val != val` test). -/
def getValue (x : PyFloat) : Except String ℚ :=
  if x.isNan then Except.error "loss value is NaN :((" else Except.ok x.val

/-- `EfficientLossMonitor.epoch`: after the warmup epoch, count consecutive
epochs whose mean loss exceeds the threshold in absolute value, raising
`ValueError` once the count passes the patience; a below-threshold epoch
resets the counter to zero. The returned value is the new counter. -/
def monitorEpoch (cfg : LossMonitorCfg) (counter : ℤ) (idx : ℤ)
    (epoch_mean : ℚ) : Except String ℤ :=
  if cfg.warmup < idx then
    if cfg.threshold < |epoch_mean| then
      if cfg.patience < counter + 1 then
        Except.error "loss value exceeded the threshold"
      else Except.ok (counter + 1)
    else Except.ok 0
  else Except.ok counter

/-- Run `EfficientLossMonitor.epoch` over a sequence of epochs, each given
as `(idx, epoch_mean)`, threading the counter; stops at the first raised
error. -/
def monitorRun (cfg : LossMonitorCfg) : ℤ → List (ℤ × ℚ) → Except String ℤ
  | counter, [] => Except.ok counter
  | counter, e :: rest =>
    match monitorEpoch cfg counter e.1 e.2 with
    | Except.error s => Except.error s
    | Except.ok c => monitorRun cfg c rest

theorem evenCnt_closed (n : ℕ) : ∀ i, evenCnt i n = (n + 1 - i % 2) / 2 := by
  induction n with
  | zero => intro i; simp only [evenCnt]; omega
  | succ n ih =>
    intro i
    simp only [evenCnt, ih (i + 1)]
    split_ifs <;> omega

/-- A boundary strictly below `cur_nimg` is scanned past, incrementing the
depth exactly when its index is even. -/
theorem scanLoop_cons_lt {cur point : ℤ} (rest : List ℤ) (i : ℕ) (prev depth : ℤ)
    (h : point < cur) :
    scanLoop cur (point :: rest) i prev depth =
      scanLoop cur rest (i + 1) point (if i % 2 = 0 then depth + 1 else depth) := by
  simp only [scanLoop]
  split_ifs <;> first | rfl | omega

/-- Scanning past a whole prefix of boundaries strictly below `cur_nimg`. -/
theorem scanLoop_append {cur : ℤ} (l1 : List ℤ) (l2 : List ℤ) (i : ℕ) (prev depth : ℤ)
    (h : ∀ x ∈ l1, x < cur) :
    scanLoop cur (l1 ++ l2) i prev depth =
      scanLoop cur l2 (i + l1.length) (lastD l1 prev) (depth + evenCnt i l1.length) := by
  induction l1 generalizing i prev depth with
  | nil => simp [lastD, evenCnt]
  | cons a t ih =>
    have ha : a < cur := h a (by simp)
    rw [List.cons_append, scanLoop_cons_lt (t ++ l2) i prev depth ha,
      ih (i + 1) a _ (fun x hx => h x (by simp [hx]))]
    have hlen : i + 1 + t.length = i + (a :: t).length := by simp; omega
    have hcnt : (if i % 2 = 0 then depth + 1 else depth) + evenCnt (i + 1) t.length =
        depth + evenCnt i (a :: t).length := by
      simp only [List.length_cons, evenCnt]
      split <;> omega
    rw [hlen, hcnt]
    rfl

/-- Exact equality with the scanned boundary stops the scan at once. -/
theorem scanLoop_cons_eq {cur point : ℤ} (rest : List ℤ) (i : ℕ) (prev depth : ℤ)
    (h : cur = point) :
    scanLoop cur (point :: rest) i prev depth = (depth, 1) := by
  simp [scanLoop, h]

/-- Strictly below a boundary of even index (a training-segment end): stop
with the accumulated depth and `alpha = 1.0`. -/
theorem scanLoop_cons_gt_even {cur point : ℤ} (rest : List ℤ) (i : ℕ) (prev depth : ℤ)
    (h : cur < point) (hi : i % 2 = 0) :
    scanLoop cur (point :: rest) i prev depth = (depth, 1) := by
  simp only [scanLoop]
  split_ifs <;> first | rfl | omega

/-- Strictly below a boundary of odd index (a transition-segment end): stop
with the accumulated depth and the interpolated `alpha`. -/
theorem scanLoop_cons_gt_odd {cur point : ℤ} (rest : List ℤ) (i : ℕ) (prev depth : ℤ)
    (h : cur < point) (hi : i % 2 = 1) :
    scanLoop cur (point :: rest) i prev depth =
      (depth, ((cur - prev : ℤ) : ℚ) / ((point - prev : ℤ) : ℚ)) := by
  simp only [scanLoop]
  split_ifs <;> first | rfl | omega

/-- In a strictly increasing list, an earlier element is smaller. -/
theorem sorted_get_lt {l : List ℤ} (hs : List.Chain' (· < ·) l) {a b : ℕ}
    (hab : a < b) (hb : b < l.length) :
    l.get ⟨a, by omega⟩ < l.get ⟨b, hb⟩ := by
  rw [List.get_eq_getElem, List.get_eq_getElem]
  exact List.pairwise_iff_getElem.mp (List.chain'_iff_pairwise.mp hs) a b (by omega) hb hab

/-- In a strictly increasing list, every element of `l.take j` is below the
element at index `j`. -/
theorem take_all_lt {l : List ℤ} (hs : List.Chain' (· < ·) l) {j : ℕ} (hj : j < l.length) :
    ∀ x ∈ l.take j, x < l.get ⟨j, hj⟩ := by
  intro x hx
  obtain ⟨n, hn, hnx⟩ := List.mem_iff_getElem.mp hx
  have hlt : n < j := by
    have := List.length_take j l
    omega
  have hx2 : x = l.get ⟨n, by omega⟩ := by
    rw [← hnx, List.get_eq_getElem]
    exact List.getElem_take _
  rw [hx2]
  exact sorted_get_lt hs hlt hj

/-- The `prev` value threaded through the scan after a prefix of `j + 1`
boundaries is the boundary at index `j`. -/
theorem lastD_take : ∀ (l : List ℤ) (j : ℕ) (hj : j < l.length) (d : ℤ),
    lastD (l.take (j + 1)) d = l.get ⟨j, hj⟩
  | [], _, hj, _ => absurd hj (by simp)
  | a :: t, 0, _, d => by simp [lastD]
  | a :: t, j + 1, hj, d => by
    rw [List.take_succ_cons]
    show lastD (t.take (j + 1)) a = (a :: t).get ⟨j + 1, hj⟩
    rw [lastD_take t j (by simpa using hj) a]
    simp

/-- The depth component of the scan: the depth offset plus the number of
even indices in the maximal prefix of boundaries strictly below `cur_nimg`. -/
theorem scanLoop_fst (cur : ℤ) :
    ∀ (l : List ℤ) (i : ℕ) (prev depth : ℤ),
      (scanLoop cur l i prev depth).1 =
        depth + evenCnt i (l.takeWhile (fun x => decide (x < cur))).length := by
  intro l
  induction l with
  | nil => intro i prev depth; simp [scanLoop, evenCnt]
  | cons a t ih =>
    intro i prev depth
    by_cases hlt : a < cur
    · rw [scanLoop_cons_lt t i prev depth hlt, ih]
      have htw : (a :: t).takeWhile (fun x => decide (x < cur))
          = a :: t.takeWhile (fun x => decide (x < cur)) := by
        simp [List.takeWhile_cons, hlt]
      rw [htw]
      simp only [List.length_cons, evenCnt]
      split <;> omega
    · have htw : (a :: t).takeWhile (fun x => decide (x < cur)) = [] := by
        simp [List.takeWhile_cons, hlt]
      rw [htw]
      simp only [List.length_nil, evenCnt, Nat.add_zero]
      rcases lt_or_eq_of_le (not_lt.mp hlt) with hlt2 | heq
      · rcases Nat.even_or_odd i with hp | hp
        · rw [scanLoop_cons_gt_even t i prev depth hlt2 (Nat.even_iff.mp hp)]
          simp
        · rw [scanLoop_cons_gt_odd t i prev depth hlt2 (Nat.odd_iff.mp hp)]
          simp
      · rw [scanLoop_cons_eq t i prev depth heq]
        simp

/-- The prefix of boundaries strictly below `cur_nimg` grows with `cur_nimg`. -/
theorem takeWhile_length_mono {c1 c2 : ℤ} (h : c1 ≤ c2) :
    ∀ l : List ℤ, (l.takeWhile (fun x => decide (x < c1))).length ≤
      (l.takeWhile (fun x => decide (x < c2))).length := by
  intro l
  induction l with
  | nil => simp
  | cons a t ih =>
    by_cases h1 : a < c1
    · have h2 : a < c2 := lt_of_lt_of_le h1 h
      simp only [List.takeWhile_cons]
      rw [if_pos (by simpa using h1), if_pos (by simpa using h2)]
      simpa using ih
    · simp only [List.takeWhile_cons]
      rw [if_neg (by simpa using h1)]
      simp

theorem evenCnt_le {n1 n2 : ℕ} (h : n1 ≤ n2) : evenCnt 0 n1 ≤ evenCnt 0 n2 := by
  rw [evenCnt_closed, evenCnt_closed]
  omega

/-- The depth component of `calc_progress`, in closed form. -/
theorem calc_progress_fst (dm : DepthManager) (cur : ℤ) :
    (calc_progress dm cur).1 = if dm.disable_progression then dm.max_depth
      else min dm.max_depth (dm.depth_offset +
        evenCnt 0 (dm.alpha_map.takeWhile (fun x => decide (x < cur))).length) := by
  cases hd : dm.disable_progression <;>
    simp [calc_progress, hd, scanLoop_fst]

/-- The spec scenario schedule evaluates to the boundaries of the spec. -/
theorem exampleMap_eq : exampleMap = [1000, 1500, 2500, 3000, 4000, 4500] := by
  norm_num [exampleMap, pre_compute_alpha_map, preComputeAux, dictGet, pyInt]

theorem exampleDM_eq :
    exampleDM = ⟨0, 3, false, [1000, 1500, 2500, 3000, 4000, 4500], true, 256, 1, 1⟩ := by
  unfold exampleDM
  rw [exampleMap_eq]

theorem exampleChain : List.Chain' (· < ·) exampleDM.alpha_map := by
  rw [exampleDM_eq]
  norm_num [List.chain'_cons]

/-- With progression enabled, `calc_progress` is the clamped scan result. -/
theorem calc_progress_of_enabled (dm : DepthManager) (cur : ℤ)
    (hd : dm.disable_progression = false) :
    calc_progress dm cur =
      (min dm.max_depth (scanLoop cur dm.alpha_map 0 0 dm.depth_offset).1,
       (scanLoop cur dm.alpha_map 0 0 dm.depth_offset).2) := by
  simp [calc_progress, hd]

/-- The scan stops, with `alpha = 1.0` and the accumulated depth, at a
boundary equal to `cur_nimg` when all earlier boundaries are smaller. -/
theorem scanLoop_stop_mem (cur : ℤ) (l1 l2 : List ℤ) (depth : ℤ)
    (h : ∀ x ∈ l1, x < cur) :
    scanLoop cur (l1 ++ cur :: l2) 0 0 depth = (depth + evenCnt 0 l1.length, 1) := by
  rw [scanLoop_append l1 (cur :: l2) 0 0 depth h]
  exact scanLoop_cons_eq l2 _ _ _ rfl

/-- Claim C1: if `cur_nimg` equals the boundary at index `j` of a strictly
increasing boundary list, the scan stops there without applying that
boundary's effect: `alpha` is `1.0` and the depth counts only the
training-end boundaries strictly before index `j` (clamped at `max_depth`);
in particular at a training-end (even-index) boundary the depth is
`depth_offset + j / 2`, i.e. not yet incremented for that boundary, and in
the spec scenario `calc_progress(1500) = (1, 1.0)`. -/
theorem C1_exact_boundary_equality (dm : DepthManager)
    (hs : List.Chain' (· < ·) dm.alpha_map)
    (hd : dm.disable_progression = false)
    (j : ℕ) (hj : j < dm.alpha_map.length) :
    calc_progress dm (dm.alpha_map.get ⟨j, hj⟩) =
      (min dm.max_depth (dm.depth_offset + ((j + 1) / 2 : ℕ)), 1) ∧
    (j % 2 = 0 → calc_progress dm (dm.alpha_map.get ⟨j, hj⟩) =
      (min dm.max_depth (dm.depth_offset + (j / 2 : ℕ)), 1)) ∧
    calc_progress exampleDM 1500 = (1, 1) := by
  obtain ⟨cur, hcur⟩ : ∃ c, dm.alpha_map[j] = c := ⟨_, rfl⟩
  have hsplit : dm.alpha_map = dm.alpha_map.take j ++
      cur :: dm.alpha_map.drop (j + 1) := by
    conv_lhs => rw [← List.take_append_drop j dm.alpha_map]
    rw [List.drop_eq_getElem_cons hj, hcur]
  have hall : ∀ x ∈ dm.alpha_map.take j, x < cur := by
    rw [← hcur]
    exact take_all_lt hs hj
  have hscan : scanLoop cur dm.alpha_map 0 0 dm.depth_offset
      = (dm.depth_offset + evenCnt 0 (dm.alpha_map.take j).length, 1) := by
    conv_lhs => rw [hsplit]
    exact scanLoop_stop_mem _ _ _ _ hall
  have hlen : (dm.alpha_map.take j).length = j := by
    rw [List.length_take]; omega
  have heN : evenCnt 0 j = (j + 1) / 2 := by
    rw [evenCnt_closed]
    omega
  rw [hlen, heN] at hscan
  simp only [List.get_eq_getElem]
  rw [hcur]
  have hmain : calc_progress dm cur =
      (min dm.max_depth (dm.depth_offset + ((j + 1) / 2 : ℕ)), 1) := by
    rw [calc_progress_of_enabled dm _ hd, hscan]
  have hconc : calc_progress exampleDM 1500 = (1, 1) := by
    rw [exampleDM_eq]
    norm_num [calc_progress, scanLoop]
  refine ⟨hmain, fun hje => ?_, hconc⟩
  have h2 : (j + 1) / 2 = j / 2 := by omega
  rw [hmain, h2]

/-- Closed-form witness for C1 at `j = 0` of the spec scenario. -/
theorem C1_exact_boundary_equality_witness :
    calc_progress exampleDM
        (exampleDM.alpha_map.get ⟨0, by rw [exampleDM_eq]; norm_num⟩) =
      (min exampleDM.max_depth (exampleDM.depth_offset + ((0 + 1) / 2 : ℕ)), 1) ∧
    (0 % 2 = 0 → calc_progress exampleDM
        (exampleDM.alpha_map.get ⟨0, by rw [exampleDM_eq]; norm_num⟩) =
      (min exampleDM.max_depth (exampleDM.depth_offset + ((0 : ℕ) / 2 : ℕ)), 1)) ∧
    calc_progress exampleDM 1500 = (1, 1) :=
  C1_exact_boundary_equality exampleDM exampleChain rfl 0
    (by rw [exampleDM_eq]; norm_num)

set_option maxHeartbeats 1600000 in
/-- Claim C2: for `cur_nimg` strictly between the training-end boundary at
even index `2k` and the transition-end boundary at odd index `2k + 1` of a
strictly increasing schedule of the expected length, `calc_progress` returns
the depth incremented past the training-end boundary,
`depth_offset + k + 1`, and the linear fade-in coefficient
`(cur_nimg - T) / (T' - T)`; in the spec scenario
`calc_progress(1200) = (1, 0.4)`. -/
theorem C2_transition_alpha (dm : DepthManager)
    (hs : List.Chain' (· < ·) dm.alpha_map)
    (hd : dm.disable_progression = false)
    (hlen : dm.alpha_map.length = 2 * (dm.max_depth - dm.depth_offset).toNat)
    (k : ℕ) (hk : 2 * k + 1 < dm.alpha_map.length) (cur : ℤ)
    (h1 : dm.alpha_map.get ⟨2 * k, by omega⟩ < cur)
    (h2 : cur < dm.alpha_map.get ⟨2 * k + 1, hk⟩) :
    calc_progress dm cur =
      (dm.depth_offset + ((k : ℤ) + 1),
       ((cur - dm.alpha_map.get ⟨2 * k, by omega⟩ : ℤ) : ℚ) /
         ((dm.alpha_map.get ⟨2 * k + 1, hk⟩ - dm.alpha_map.get ⟨2 * k, by omega⟩ : ℤ) : ℚ)) ∧
    calc_progress exampleDM 1200 = (1, 2 / 5) := by
  have hall : ∀ x ∈ dm.alpha_map.take (2 * k + 1), x < cur := by
    intro x hx
    obtain ⟨n, hn, hnx⟩ := List.mem_iff_getElem.mp hx
    have hn2 : n < 2 * k + 1 := by
      have := List.length_take (2 * k + 1) dm.alpha_map
      omega
    have hx2 : x = dm.alpha_map.get ⟨n, by omega⟩ := by
      rw [← hnx, List.get_eq_getElem]
      exact List.getElem_take _
    rw [hx2]
    rcases Nat.lt_or_ge n (2 * k) with hcase | hcase
    · exact lt_trans (sorted_get_lt hs hcase (by omega)) h1
    · have hn2k : n = 2 * k := by omega
      subst hn2k
      exact h1
  have hsplit : dm.alpha_map = dm.alpha_map.take (2 * k + 1) ++
      dm.alpha_map.get ⟨2 * k + 1, hk⟩ :: dm.alpha_map.drop (2 * k + 2) := by
    conv_lhs => rw [← List.take_append_drop (2 * k + 1) dm.alpha_map]
    rw [List.drop_eq_getElem_cons hk, List.get_eq_getElem]
  have hlen1 : (dm.alpha_map.take (2 * k + 1)).length = 2 * k + 1 := by
    rw [List.length_take]; omega
  have hprev : lastD (dm.alpha_map.take (2 * k + 1)) 0 =
      dm.alpha_map.get ⟨2 * k, by omega⟩ :=
    lastD_take dm.alpha_map (2 * k) (by omega) 0
  have hscan : scanLoop cur dm.alpha_map 0 0 dm.depth_offset =
      (dm.depth_offset + evenCnt 0 (2 * k + 1),
       ((cur - dm.alpha_map.get ⟨2 * k, by omega⟩ : ℤ) : ℚ) /
         ((dm.alpha_map.get ⟨2 * k + 1, hk⟩ - dm.alpha_map.get ⟨2 * k, by omega⟩ : ℤ) : ℚ)) := by
    conv_lhs => rw [hsplit]
    rw [scanLoop_append _ _ 0 0 dm.depth_offset hall, hlen1, hprev]
    exact scanLoop_cons_gt_odd _ _ _ _ h2 (by omega)
  have heN : evenCnt 0 (2 * k + 1) = k + 1 := by
    rw [evenCnt_closed]
    omega
  rw [heN] at hscan
  have hconc : calc_progress exampleDM 1200 = (1, 2 / 5) := by
    rw [exampleDM_eq]
    norm_num [calc_progress, scanLoop]
  refine ⟨?_, hconc⟩
  rw [calc_progress_of_enabled dm _ hd, hscan]
  rw [Prod.ext_iff]
  refine ⟨?_, rfl⟩
  push_cast
  omega

/-- Closed-form witness for C2 in the spec scenario at `k = 0`,
`cur_nimg = 1200`. -/
theorem C2_transition_alpha_witness :
    calc_progress exampleDM 1200 =
      (exampleDM.depth_offset + ((0 : ℕ) + 1 : ℤ),
       ((1200 - exampleDM.alpha_map.get ⟨2 * 0, by rw [exampleDM_eq]; norm_num⟩ : ℤ) : ℚ) /
         ((exampleDM.alpha_map.get ⟨2 * 0 + 1, by rw [exampleDM_eq]; norm_num⟩ -
           exampleDM.alpha_map.get ⟨2 * 0, by rw [exampleDM_eq]; norm_num⟩ : ℤ) : ℚ)) ∧
    calc_progress exampleDM 1200 = (1, 2 / 5) :=
  C2_transition_alpha exampleDM exampleChain rfl (by rw [exampleDM_eq]; rfl) 0
    (by rw [exampleDM_eq]; norm_num) 1200
    (by simp [exampleDM_eq]) (by simp [exampleDM_eq])

/-- Claim C7: with `disable_progression` set, `calc_progress` returns
`(max_depth, 1.0)` for every `cur_nimg` (including `0`), regardless of the
boundary table. -/
theorem C7_disable_progression (dm : DepthManager)
    (h : dm.disable_progression = true) :
    ∀ cur_nimg : ℤ, calc_progress dm cur_nimg = (dm.max_depth, 1) := by
  intro cur
  simp [calc_progress, h]

/-- Closed-form witness for C7: the spec scenario with progression disabled,
at `cur_nimg = 0`. -/
theorem C7_disable_progression_witness :
    calc_progress ⟨0, 3, true, exampleMap, true, 256, 1, 1⟩ 0 = (3, 1) :=
  C7_disable_progression ⟨0, 3, true, exampleMap, true, 256, 1, 1⟩ rfl 0

/-- Claim C6: the depth of `calc_progress` is monotone in `cur_nimg` and
never exceeds `max_depth`; for a strictly increasing schedule of the full
length, every `cur_nimg` at or beyond the last boundary yields exactly
`(max_depth, 1.0)`. -/
theorem C6_depth_monotone_clamped (dm : DepthManager) :
    (∀ c1 c2 : ℤ, c1 < c2 → (calc_progress dm c1).1 ≤ (calc_progress dm c2).1) ∧
    (∀ c : ℤ, (calc_progress dm c).1 ≤ dm.max_depth) ∧
    (∀ cur : ℤ, List.Chain' (· < ·) dm.alpha_map →
      dm.alpha_map.length = 2 * (dm.max_depth - dm.depth_offset).toNat →
      dm.alpha_map ≠ [] → (∀ x ∈ dm.alpha_map, x ≤ cur) →
      calc_progress dm cur = (dm.max_depth, 1)) := by
  refine ⟨?_, ?_, ?_⟩
  · intro c1 c2 h
    rw [calc_progress_fst, calc_progress_fst]
    by_cases hd : dm.disable_progression = true
    · rw [if_pos hd, if_pos hd]
    · rw [if_neg hd, if_neg hd]
      have hm : evenCnt 0 (dm.alpha_map.takeWhile (fun x => decide (x < c1))).length ≤
          evenCnt 0 (dm.alpha_map.takeWhile (fun x => decide (x < c2))).length :=
        evenCnt_le (takeWhile_length_mono (le_of_lt h) dm.alpha_map)
      exact min_le_min (le_refl _) (by omega)
  · intro c
    rw [calc_progress_fst]
    by_cases hd : dm.disable_progression = true
    · rw [if_pos hd]
    · rw [if_neg hd]
      exact min_le_left _ _
  · intro cur hs hlen hne hall
    have hlen0 : dm.alpha_map.length ≠ 0 := fun h0 => hne (List.length_eq_zero.mp h0)
    by_cases hmem : cur ∈ dm.alpha_map
    · obtain ⟨n, hn, hnx⟩ := List.mem_iff_getElem.mp hmem
      rcases Nat.lt_or_ge (n + 1) dm.alpha_map.length with hlt1 | hge
      · exfalso
        obtain ⟨y, hy⟩ : ∃ c, dm.alpha_map[n + 1] = c := ⟨_, rfl⟩
        have hcy : cur < y := by
          rw [← hnx, ← hy]
          have hg := sorted_get_lt hs (a := n) (b := n + 1) (by omega) hlt1
          simpa [List.get_eq_getElem] using hg
        have hyc : y ≤ cur := by
          rw [← hy]
          exact hall _ (List.getElem_mem _)
        omega
      · have hn1 : n = dm.alpha_map.length - 1 := by omega
        have hsplit : dm.alpha_map = dm.alpha_map.take n ++
            cur :: dm.alpha_map.drop (n + 1) := by
          conv_lhs => rw [← List.take_append_drop n dm.alpha_map]
          rw [List.drop_eq_getElem_cons hn, hnx]
        have hall2 : ∀ x ∈ dm.alpha_map.take n, x < cur := by
          rw [← hnx]
          exact take_all_lt hs hn
        have hscan : scanLoop cur dm.alpha_map 0 0 dm.depth_offset =
            (dm.depth_offset + evenCnt 0 (dm.alpha_map.take n).length, 1) := by
          conv_lhs => rw [hsplit]
          exact scanLoop_stop_mem _ _ _ _ hall2
        have htn : (dm.alpha_map.take n).length = n := by
          rw [List.length_take]; omega
        rw [htn] at hscan
        have he : (evenCnt 0 n : ℤ) = dm.max_depth - dm.depth_offset := by
          have := evenCnt_closed n 0
          omega
        by_cases hd : dm.disable_progression = true
        · simp [calc_progress, hd]
        · rw [calc_progress_of_enabled dm cur (eq_false_of_ne_true hd), hscan]
          rw [Prod.ext_iff]
          refine ⟨?_, rfl⟩
          show min dm.max_depth (dm.depth_offset + (evenCnt 0 n : ℤ)) = dm.max_depth
          omega
    · have hallt : ∀ x ∈ dm.alpha_map, x < cur := by
        intro x hx
        rcases lt_or_eq_of_le (hall x hx) with hc | hc
        · exact hc
        · exact absurd (hc ▸ hx) hmem
      have hscan := scanLoop_append dm.alpha_map [] 0 0 dm.depth_offset hallt
      rw [List.append_nil] at hscan
      have hscan2 : scanLoop cur dm.alpha_map 0 0 dm.depth_offset =
          (dm.depth_offset + evenCnt 0 dm.alpha_map.length, 1) := by
        rw [hscan]; rfl
      have he : (evenCnt 0 dm.alpha_map.length : ℤ) =
          dm.max_depth - dm.depth_offset := by
        have := evenCnt_closed dm.alpha_map.length 0
        omega
      by_cases hd : dm.disable_progression = true
      · simp [calc_progress, hd]
      · rw [calc_progress_of_enabled dm cur (eq_false_of_ne_true hd), hscan2]
        rw [Prod.ext_iff]
        refine ⟨?_, rfl⟩
        show min dm.max_depth (dm.depth_offset + (evenCnt 0 dm.alpha_map.length : ℤ)) =
          dm.max_depth
        omega

/-- Closed-form witness for C6 in the spec scenario: monotonicity between
`100` and `2000`, the clamp at `123`, and saturation at `5000`. -/
theorem C6_depth_monotone_clamped_witness :
    ((calc_progress exampleDM 100).1 ≤ (calc_progress exampleDM 2000).1) ∧
    ((calc_progress exampleDM 123).1 ≤ exampleDM.max_depth) ∧
    calc_progress exampleDM 5000 = (exampleDM.max_depth, 1) :=
  ⟨(C6_depth_monotone_clamped exampleDM).1 100 2000 (by norm_num),
   (C6_depth_monotone_clamped exampleDM).2.1 123,
   (C6_depth_monotone_clamped exampleDM).2.2 5000 exampleChain
     (by rw [exampleDM_eq]; rfl) (by rw [exampleDM_eq]; simp)
     (by rw [exampleDM_eq]; norm_num [List.forall_mem_cons])⟩

/-- The guarded scan never takes the `none` (division-by-zero) branch: the
scan reaches an odd index `i` only having passed index `i - 1` with
`alpha_map[i - 1] < cur_nimg`, so the branch computing `alpha` has
`prev < cur_nimg < point`, and `point - prev ≠ 0`. -/
theorem scanLoopChecked_eq_some (cur : ℤ) :
    ∀ (l : List ℤ) (i : ℕ) (prev depth : ℤ), (i % 2 = 1 → prev < cur) →
      scanLoopChecked cur l i prev depth = some (scanLoop cur l i prev depth) := by
  intro l
  induction l with
  | nil => intro i prev depth _; rfl
  | cons point rest ih =>
    intro i prev depth hinv
    by_cases he : cur = point
    · simp [scanLoopChecked, scanLoop, he]
    · by_cases hlt : cur < point
      · rcases Nat.even_or_odd i with hpar | hpar
        · have h0 : i % 2 = 0 := Nat.even_iff.mp hpar
          simp only [scanLoopChecked, scanLoop]
          split_ifs <;> first | rfl | omega
        · have h1 : i % 2 = 1 := Nat.odd_iff.mp hpar
          have hprev : prev < cur := hinv h1
          simp only [scanLoopChecked, scanLoop]
          split_ifs <;> first | rfl | omega
      · have hgt : point < cur := by omega
        have hstep : scanLoopChecked cur (point :: rest) i prev depth =
            scanLoopChecked cur rest (i + 1) point
              (if i % 2 = 0 then depth + 1 else depth) := by
          simp only [scanLoopChecked]
          split_ifs <;> first | rfl | omega
        rw [hstep, scanLoop_cons_lt rest i prev depth hgt]
        exact ih (i + 1) point _ (fun _ => hgt)

/-- Claim C9: `calc_progress` never divides by zero, even on a schedule with
a zero-length transition segment: the guarded scan always returns `some`,
agreeing with the unguarded scan, and for a boundary value reached with all
earlier boundaries smaller (in particular the shared boundary of an empty
transition segment) the returned `alpha` is `1.0`. -/
theorem C9_no_division_by_zero :
    (∀ (dm : DepthManager) (cur : ℤ),
      scanLoopChecked cur dm.alpha_map 0 0 dm.depth_offset =
        some (scanLoop cur dm.alpha_map 0 0 dm.depth_offset)) ∧
    (∀ (dm : DepthManager) (cur : ℤ) (l1 l2 : List ℤ),
      dm.alpha_map = l1 ++ cur :: l2 → (∀ x ∈ l1, x < cur) →
      (calc_progress dm cur).2 = 1) := by
  constructor
  · intro dm cur
    exact scanLoopChecked_eq_some cur dm.alpha_map 0 0 dm.depth_offset (by omega)
  · intro dm cur l1 l2 hsplit hall
    have hscan : scanLoop cur dm.alpha_map 0 0 dm.depth_offset =
        (dm.depth_offset + evenCnt 0 l1.length, 1) := by
      rw [hsplit]
      exact scanLoop_stop_mem _ _ _ _ hall
    by_cases hd : dm.disable_progression = true
    · simp [calc_progress, hd]
    · rw [calc_progress_of_enabled dm cur (eq_false_of_ne_true hd), hscan]

/-- Closed-form witness for C9: a schedule with a zero-length transition
segment `[1000, 1000]`, evaluated at the shared boundary. -/
theorem C9_no_division_by_zero_witness :
    scanLoopChecked 1000 ([1000, 1000] : List ℤ) 0 0 0 =
      some (scanLoop 1000 ([1000, 1000] : List ℤ) 0 0 0) ∧
    (calc_progress ⟨0, 1, false, [1000, 1000], true, 256, 1, 1⟩ 1000).2 = 1 :=
  ⟨C9_no_division_by_zero.1 ⟨0, 1, false, [1000, 1000], true, 256, 1, 1⟩ 1000,
   C9_no_division_by_zero.2 ⟨0, 1, false, [1000, 1000], true, 256, 1, 1⟩ 1000
     [] [1000] rfl (by simp)⟩

/-- Claim C4: when `calc_progress` reports exactly the previously recorded
depth and alpha, `iteration` performs no side effect on the generator,
discriminator, dataset, dataloader, data iterator, latent generator,
optimizers, schedulers, or tick duration: only the stats entries for depth
and alpha are rewritten (to the values they already report). -/
theorem C4_noop_iteration (dm : DepthManager) (ms : DMState) (ts : TrainerState)
    (r : Bool) (h : calc_progress dm ts.cur_nimg = (ms.depth, ms.alpha)) :
    iteration dm ms ts r =
      (ms, { ts with stats_depth := ms.depth, stats_alpha_val := ms.alpha }) := by
  simp [iteration, h]

/-- Closed-form witness for C4: the spec scenario at `cur_nimg = 1200` with
the recorded progress already `(1, 2/5)`. -/
theorem C4_noop_iteration_witness :
    iteration exampleDM ⟨1, 2 / 5⟩ exampleTS false =
      (⟨1, 2 / 5⟩, { exampleTS with stats_depth := 1, stats_alpha_val := 2 / 5 }) :=
  C4_noop_iteration exampleDM ⟨1, 2 / 5⟩ exampleTS false
    (by rw [exampleDM_eq]; norm_num [exampleTS, calc_progress, scanLoop])

/-- Claim C5: a depth change observed with `is_resuming = true` rebuilds the
dataloader, data iterator, latent generator, minibatch size and tick
duration for the new depth, but preserves the optimizers and learning-rate
schedulers; and `register` performs exactly one `iteration` with
`is_resuming` set to whether a resumed optimizer is present. -/
theorem C5_resume_preserves_optimizer (dm : DepthManager) (ms : DMState)
    (ts : TrainerState) (h : (calc_progress dm ts.cur_nimg).1 ≠ ms.depth) :
    (iteration dm ms ts true).2.optimizer_gen = ts.optimizer_gen ∧
    (iteration dm ms ts true).2.optimizer_lr = ts.optimizer_lr ∧
    (iteration dm ms ts true).2.lr_scheduler_gen = ts.lr_scheduler_gen ∧
    (iteration dm ms ts true).2.data_loader_gen = ts.data_loader_gen + 1 ∧
    (iteration dm ms ts true).2.dataiter_gen = ts.dataiter_gen + 1 ∧
    (iteration dm ms ts true).2.rlg_gen = ts.rlg_gen + 1 ∧
    (iteration dm ms ts true).2.data_loader_batch =
      dictGet minibatch_override ((calc_progress dm ts.cur_nimg).1 - dm.depth_offset)
        dm.minibatch_default ∧
    (iteration dm ms ts true).2.stats_minibatch_size =
      dictGet minibatch_override ((calc_progress dm ts.cur_nimg).1 - dm.depth_offset)
        dm.minibatch_default ∧
    (iteration dm ms ts true).2.tick_duration_nimg =
      pyInt (dictGet tick_kimg_override
        ((calc_progress dm ts.cur_nimg).1 - dm.depth_offset) dm.tick_kimg_default * 1000) ∧
    (∀ (ms0 : DMState) (ts0 : TrainerState), register dm ms0 ts0 =
      iteration dm ms0 { ts0 with stats_minibatch_size := dm.minibatch_default,
                                  stats_alpha_val := ms0.alpha } ts0.optimizer_d_present) := by
  refine ⟨?_, ?_, ?_, ?_, ?_, ?_, ?_, ?_, ?_, fun ms0 ts0 => rfl⟩ <;>
    simp [iteration, h] <;> split_ifs <;> simp

/-- Closed-form witness for C5: resuming the spec scenario at
`cur_nimg = 1200` with stale recorded depth `-1`. -/
theorem C5_resume_preserves_optimizer_witness :
    (iteration exampleDM ⟨-1, -1⟩ exampleTS true).2.optimizer_gen =
      exampleTS.optimizer_gen ∧
    (iteration exampleDM ⟨-1, -1⟩ exampleTS true).2.optimizer_lr =
      exampleTS.optimizer_lr ∧
    (iteration exampleDM ⟨-1, -1⟩ exampleTS true).2.lr_scheduler_gen =
      exampleTS.lr_scheduler_gen ∧
    (iteration exampleDM ⟨-1, -1⟩ exampleTS true).2.data_loader_gen =
      exampleTS.data_loader_gen + 1 ∧
    (iteration exampleDM ⟨-1, -1⟩ exampleTS true).2.dataiter_gen =
      exampleTS.dataiter_gen + 1 ∧
    (iteration exampleDM ⟨-1, -1⟩ exampleTS true).2.rlg_gen =
      exampleTS.rlg_gen + 1 ∧
    (iteration exampleDM ⟨-1, -1⟩ exampleTS true).2.data_loader_batch =
      dictGet minibatch_override
        ((calc_progress exampleDM exampleTS.cur_nimg).1 - exampleDM.depth_offset)
        exampleDM.minibatch_default ∧
    (iteration exampleDM ⟨-1, -1⟩ exampleTS true).2.stats_minibatch_size =
      dictGet minibatch_override
        ((calc_progress exampleDM exampleTS.cur_nimg).1 - exampleDM.depth_offset)
        exampleDM.minibatch_default ∧
    (iteration exampleDM ⟨-1, -1⟩ exampleTS true).2.tick_duration_nimg =
      pyInt (dictGet tick_kimg_override
        ((calc_progress exampleDM exampleTS.cur_nimg).1 - exampleDM.depth_offset)
        exampleDM.tick_kimg_default * 1000) ∧
    (∀ (ms0 : DMState) (ts0 : TrainerState), register exampleDM ms0 ts0 =
      iteration exampleDM ms0
        { ts0 with stats_minibatch_size := exampleDM.minibatch_default,
                   stats_alpha_val := ms0.alpha } ts0.optimizer_d_present) :=
  C5_resume_preserves_optimizer exampleDM ⟨-1, -1⟩ exampleTS
    (by rw [exampleDM_eq]; norm_num [exampleTS, calc_progress, scanLoop])

/-- Claim C8: on a depth change with optimizer reset enabled and the run not
resuming, the new minibatch size is the per-depth override (fallback
default), the optimizer factory receives learning rate
`minibatch_default * default_lr / minibatch_size`, and the tick duration is
the per-depth tick override (fallback default) times 1000 samples. -/
theorem C8_depth_change_rebuild (dm : DepthManager) (ms : DMState)
    (ts : TrainerState) (h : (calc_progress dm ts.cur_nimg).1 ≠ ms.depth)
    (hr : dm.reset_optimizer = true) :
    (iteration dm ms ts false).2.stats_minibatch_size =
      dictGet minibatch_override ((calc_progress dm ts.cur_nimg).1 - dm.depth_offset)
        dm.minibatch_default ∧
    (iteration dm ms ts false).2.data_loader_batch =
      dictGet minibatch_override ((calc_progress dm ts.cur_nimg).1 - dm.depth_offset)
        dm.minibatch_default ∧
    (iteration dm ms ts false).2.rlg_batch =
      dictGet minibatch_override ((calc_progress dm ts.cur_nimg).1 - dm.depth_offset)
        dm.minibatch_default ∧
    (iteration dm ms ts false).2.optimizer_gen = ts.optimizer_gen + 1 ∧
    (iteration dm ms ts false).2.lr_scheduler_gen = ts.lr_scheduler_gen + 1 ∧
    (iteration dm ms ts false).2.optimizer_lr =
      (dm.minibatch_default : ℚ) * dm.default_lr /
        ((dictGet minibatch_override ((calc_progress dm ts.cur_nimg).1 - dm.depth_offset)
          dm.minibatch_default : ℤ) : ℚ) ∧
    (iteration dm ms ts false).2.tick_duration_nimg =
      pyInt (dictGet tick_kimg_override
        ((calc_progress dm ts.cur_nimg).1 - dm.depth_offset) dm.tick_kimg_default * 1000) := by
  refine ⟨?_, ?_, ?_, ?_, ?_, ?_, ?_⟩ <;>
    simp [iteration, h, hr] <;> split_ifs <;> simp

/-- Closed-form witness for C8: a fresh (depth `-1`) state of the spec
scenario at `cur_nimg = 1200`, not resuming. -/
theorem C8_depth_change_rebuild_witness :
    (iteration exampleDM ⟨-1, -1⟩ exampleTS false).2.stats_minibatch_size =
      dictGet minibatch_override
        ((calc_progress exampleDM exampleTS.cur_nimg).1 - exampleDM.depth_offset)
        exampleDM.minibatch_default ∧
    (iteration exampleDM ⟨-1, -1⟩ exampleTS false).2.data_loader_batch =
      dictGet minibatch_override
        ((calc_progress exampleDM exampleTS.cur_nimg).1 - exampleDM.depth_offset)
        exampleDM.minibatch_default ∧
    (iteration exampleDM ⟨-1, -1⟩ exampleTS false).2.rlg_batch =
      dictGet minibatch_override
        ((calc_progress exampleDM exampleTS.cur_nimg).1 - exampleDM.depth_offset)
        exampleDM.minibatch_default ∧
    (iteration exampleDM ⟨-1, -1⟩ exampleTS false).2.optimizer_gen =
      exampleTS.optimizer_gen + 1 ∧
    (iteration exampleDM ⟨-1, -1⟩ exampleTS false).2.lr_scheduler_gen =
      exampleTS.lr_scheduler_gen + 1 ∧
    (iteration exampleDM ⟨-1, -1⟩ exampleTS false).2.optimizer_lr =
      (exampleDM.minibatch_default : ℚ) * exampleDM.default_lr /
        ((dictGet minibatch_override
          ((calc_progress exampleDM exampleTS.cur_nimg).1 - exampleDM.depth_offset)
          exampleDM.minibatch_default : ℤ) : ℚ) ∧
    (iteration exampleDM ⟨-1, -1⟩ exampleTS false).2.tick_duration_nimg =
      pyInt (dictGet tick_kimg_override
        ((calc_progress exampleDM exampleTS.cur_nimg).1 - exampleDM.depth_offset)
        exampleDM.tick_kimg_default * 1000) :=
  C8_depth_change_rebuild exampleDM ⟨-1, -1⟩ exampleTS
    (by rw [exampleDM_eq]; norm_num [exampleTS, calc_progress, scanLoop]) rfl

/-- Running the monitor from counter `c` over epochs that are all past the
warmup and all above the threshold raises the error exactly when the
counter would pass the patience, and otherwise returns the counter advanced
by the number of epochs. -/
theorem monitorRun_exceed (cfg : LossMonitorCfg) :
    ∀ (epochs : List (ℤ × ℚ)) (c : ℤ),
      (∀ p ∈ epochs, cfg.warmup < p.1 ∧ cfg.threshold < |p.2|) →
      monitorRun cfg c epochs =
        if 1 ≤ epochs.length ∧ cfg.patience + 1 ≤ c + epochs.length then
          Except.error "loss value exceeded the threshold"
        else Except.ok (c + epochs.length) := by
  intro epochs
  induction epochs with
  | nil => intro c _; simp [monitorRun]
  | cons e rest ih =>
    intro c hall
    obtain ⟨hw, ht⟩ := hall e (by simp)
    by_cases hp : cfg.patience < c + 1
    · have hstep : monitorEpoch cfg c e.1 e.2 =
          Except.error "loss value exceeded the threshold" := by
        simp [monitorEpoch, hw, ht, hp]
      simp only [monitorRun, hstep, List.length_cons]
      rw [if_pos ⟨by omega, by push_cast; omega⟩]
    · have hstep : monitorEpoch cfg c e.1 e.2 = Except.ok (c + 1) := by
        simp [monitorEpoch, hw, ht, hp]
      simp only [monitorRun, hstep, List.length_cons]
      rw [ih (c + 1) (fun p hp2 => hall p (by simp [hp2]))]
      split_ifs <;>
        first
          | rfl
          | (simp only [Except.ok.injEq]; omega)
          | (exfalso; omega)

/-- Claim C10: numeric divergence aborts the run: a NaN loss value raises
`ValueError` in `_get_value`; after the warmup epoch an above-threshold
epoch mean advances the consecutive counter and raises `ValueError` exactly
when the counter passes the patience, a below-threshold epoch resets the
counter to zero, and a run of consecutive above-threshold epochs (all past
the warmup, patience nonnegative, counter starting at zero) aborts if and
only if it is longer than the patience. -/
theorem C10_divergence_abort :
    (∀ x : PyFloat, x.isNan = true →
      getValue x = Except.error "loss value is NaN :((") ∧
    (∀ (cfg : LossMonitorCfg) (c idx : ℤ) (m : ℚ), cfg.warmup < idx →
      cfg.threshold < |m| →
      monitorEpoch cfg c idx m =
        if cfg.patience < c + 1 then Except.error "loss value exceeded the threshold"
        else Except.ok (c + 1)) ∧
    (∀ (cfg : LossMonitorCfg) (c idx : ℤ) (m : ℚ), cfg.warmup < idx →
      |m| ≤ cfg.threshold → monitorEpoch cfg c idx m = Except.ok 0) ∧
    (∀ (cfg : LossMonitorCfg) (epochs : List (ℤ × ℚ)),
      (∀ p ∈ epochs, cfg.warmup < p.1 ∧ cfg.threshold < |p.2|) →
      0 ≤ cfg.patience →
      (monitorRun cfg 0 epochs = Except.error "loss value exceeded the threshold" ↔
        cfg.patience < epochs.length)) := by
  refine ⟨?_, ?_, ?_, ?_⟩
  · intro x hx
    simp [getValue, hx]
  · intro cfg c idx m hw ht
    simp [monitorEpoch, hw, ht]
  · intro cfg c idx m hw ht
    simp [monitorEpoch, hw, not_lt.mpr ht]
  · intro cfg epochs hall hp
    rw [monitorRun_exceed cfg epochs 0 hall]
    split_ifs with hcond
    · simp only [true_iff]
      omega
    · simp only [reduceCtorEq, false_iff, not_lt]
      omega

/-- Every loop iteration of `pre_compute_alpha_map` appends exactly two
boundaries. -/
theorem preComputeAux_length (trd tsd : ℚ) (trov tsov : ℤ → Option ℚ) :
    ∀ (fuel : ℕ) (pointer i : ℤ),
      (preComputeAux trd trov tsd tsov pointer i fuel).length = 2 * fuel := by
  intro fuel
  induction fuel with
  | zero => intro pointer i; rfl
  | succ n ih =>
    intro pointer i
    simp only [preComputeAux, List.length_cons, ih]
    omega

/-- With positive per-stage durations the running pointer strictly
increases, so the boundary list prefixed with the starting pointer is a
strictly increasing chain. -/
theorem preComputeAux_chain (trd tsd : ℚ) (trov tsov : ℤ → Option ℚ)
    (hpos : ∀ i : ℤ, 0 < pyInt (dictGet trov i trd * 1000) ∧
      0 < pyInt (dictGet tsov i tsd * 1000)) :
    ∀ (fuel : ℕ) (pointer i : ℤ),
      List.Chain' (· < ·) (pointer :: preComputeAux trd trov tsd tsov pointer i fuel) := by
  intro fuel
  induction fuel with
  | zero => intro pointer i; simp [preComputeAux]
  | succ n ih =>
    intro pointer i
    simp only [preComputeAux]
    rw [List.chain'_cons]
    constructor
    · have := (hpos (i + 1)).1
      omega
    · rw [List.chain'_cons]
      constructor
      · have := (hpos (i + 1)).2
        omega
      · exact ih _ (i + 1)

/-- Claim C3: the schedule construction returns exactly
`2 * (max_depth - depth_offset)` cumulative boundaries, alternately adding
the per-stage training and transition durations, each looked up under the
destination-stage key `i + 1` with fallback to the default and converted
from kimg to samples by the factor 1000 (the lookup and conversion are the
definition of `pre_compute_alpha_map`); with positive per-stage durations
the schedule is strictly increasing, and the spec scenario yields
`[1000, 1500, 2500, 3000, 4000, 4500]`. -/
theorem C3_schedule_construction (start_depth max_depth : ℤ) (trd tsd : ℚ)
    (trov tsov : ℤ → Option ℚ)
    (hpos : ∀ i : ℤ, 0 < pyInt (dictGet trov i trd * 1000) ∧
      0 < pyInt (dictGet tsov i tsd * 1000)) :
    (pre_compute_alpha_map start_depth max_depth trd trov tsd tsov).length =
      2 * (max_depth - start_depth).toNat ∧
    List.Chain' (· < ·) (pre_compute_alpha_map start_depth max_depth trd trov tsd tsov) ∧
    exampleMap = [1000, 1500, 2500, 3000, 4000, 4500] := by
  refine ⟨preComputeAux_length trd tsd trov tsov _ 0 start_depth, ?_, exampleMap_eq⟩
  have hchain := preComputeAux_chain trd tsd trov tsov hpos
    (max_depth - start_depth).toNat 0 start_depth
  exact hchain.tail

/-- Closed-form witness for C3 at the spec scenario parameters. -/
theorem C3_schedule_construction_witness :
    (pre_compute_alpha_map 0 3 1 (fun _ => none) (1 / 2) (fun _ => none)).length =
      2 * ((3 : ℤ) - 0).toNat ∧
    List.Chain' (· < ·)
      (pre_compute_alpha_map 0 3 1 (fun _ => none) (1 / 2) (fun _ => none)) ∧
    exampleMap = [1000, 1500, 2500, 3000, 4000, 4500] :=
  C3_schedule_construction 0 3 1 (1 / 2) (fun _ => none) (fun _ => none)
    (by intro i; constructor <;> norm_num [dictGet, pyInt])

/-- Closed-form witness for C10 with the default configuration
(threshold 10, warmup 50, patience 5): a NaN value aborts, and six
consecutive over-threshold epochs after warmup abort. -/
theorem C10_divergence_abort_witness :
    getValue ⟨true, 0⟩ = Except.error "loss value is NaN :((" ∧
    (monitorRun ⟨10, 50, 5⟩ 0 (List.replicate 6 (51, 11)) =
        Except.error "loss value exceeded the threshold" ↔
      (5 : ℤ) < (List.replicate 6 ((51 : ℤ), (11 : ℚ))).length) :=
  ⟨C10_divergence_abort.1 ⟨true, 0⟩ rfl,
   C10_divergence_abort.2.2.2 ⟨10, 50, 5⟩ (List.replicate 6 (51, 11))
     (by
       intro p hp
       rw [List.eq_of_mem_replicate hp]
       norm_num)
     (by norm_num)⟩

end PGGAN
